import Mathlib

/-!
Verification of the statement builder and the connection/transaction
lifecycle controller of the `mysql2-extended` library (src/src/query-base.ts
and src/src/index.ts), as a shallow embedding in Lean 4.

Conventions of the embedding:
* A JavaScript object used as an ordered map (a `Row`, a `Condition`) is an
  association list in insertion order; `Object.keys` is `List.map Prod.fst`
  and `Object.values` is `List.map Prod.snd`.
* A `throw` is `Except.error`, carrying the error message.
* The TypeScript builders push bind values into a shared `values` array while
  mapping over keys; this is embedded as a fold that threads the accumulated
  value list.
* JavaScript truthiness of an optional number (`opts?.limit`, `opts?.offset`)
  is `truthyNat`: the value is present and non-zero.
-/

namespace M2E

/-- `DataValue` from src/src/types.ts: `string | number | null`. -/
inductive DataValue
  | str (s : String)
  | num (n : Int)
  | null
deriving Repr, DecidableEq

/-- `BindValue` from src/src/types.ts: `DataValue | DataValue[]`. -/
inductive BindValue
  | scalar (v : DataValue)
  | arr (vs : List DataValue)
deriving Repr, DecidableEq

/-- Shorthand for a numeric scalar bind value. -/
def bnum (n : Int) : BindValue := BindValue.scalar (DataValue.num n)

/-- Shorthand for a numeric scalar bind value from a `Nat` (a JS number). -/
def bnat (n : Nat) : BindValue := BindValue.scalar (DataValue.num (Int.ofNat n))

/-- Shorthand for a string scalar bind value. -/
def bstr (s : String) : BindValue := BindValue.scalar (DataValue.str s)

/-- `Array.isArray` on a `BindValue`. -/
def BindValue.isArr : BindValue → Bool
  | BindValue.arr _ => true
  | _ => false

/-- A `Condition` (src/src/types.ts): ordered map column → bind value. -/
abbrev Condition := List (String × BindValue)

/-- A `Row` (src/src/types.ts): ordered map column → bind value. -/
abbrev Row := List (String × BindValue)

/-- Sort direction of `Order` from src/src/types.ts (`'asc' | 'desc'`). -/
inductive Dir
  | asc
  | desc
deriving Repr, DecidableEq

/-- `o[1].toUpperCase()` for a direction literal. -/
def Dir.upper : Dir → String
  | Dir.asc => "ASC"
  | Dir.desc => "DESC"

/-- `OrderBy = Order | Order[]` from src/src/types.ts; `one` is a bare pair,
`many` a list of pairs (`Array.isArray(order[0])` distinguishes them). -/
inductive OrderBy
  | one (o : String × Dir)
  | many (os : List (String × Dir))
deriving Repr, DecidableEq

/-- `Opts` from src/src/types.ts. Absent fields are `none`. -/
structure Opts where
  offset : Option Nat := none
  limit : Option Nat := none
  order : Option OrderBy := none
deriving Repr, DecidableEq

/-- Column selection of `select`: `'*'` or an explicit column list. -/
inductive Cols
  | star
  | cols (cs : List String)
deriving Repr, DecidableEq

/-- JS truthiness of an optional number: present and non-zero. -/
def truthyNat : Option Nat → Bool
  | none => false
  | some n => n != 0

/-- `QueryBase.strWrap` (src/src/query-base.ts:248): wrap in backticks. -/
def strWrap (str : String) : String := "`" ++ str ++ "`"

/-- One step of the key loop in `QueryBase.applyWhereCondition`
(src/src/query-base.ts:258-267): a `null` value emits an `IS NULL` clause and
pushes nothing; otherwise the value is pushed and the clause is `IN(?)` for an
array value, `= ?` for a scalar. -/
def whereStep (acc : List String × List BindValue) (kv : String × BindValue) :
    List String × List BindValue :=
  match kv.2 with
  | BindValue.scalar DataValue.null => (acc.1 ++ ["`" ++ kv.1 ++ "` IS NULL"], acc.2)
  | v =>
      (acc.1 ++ ["`" ++ kv.1 ++ "`" ++ (if v.isArr then " IN(?)" else " = ?")],
       acc.2 ++ [v])

/-- `QueryBase.applyWhereCondition` (src/src/query-base.ts:252-270): builds
the ` WHERE ...` fragment, pushing bind values onto `values` in key order. -/
def applyWhereCondition (values : List BindValue) (cond : Condition) :
    String × List BindValue :=
  let r := cond.foldl whereStep ([], values)
  (" WHERE " ++ String.intercalate " AND " r.1, r.2)

/-- `QueryBase.applyOrder` (src/src/query-base.ts:272-283): normalizes a bare
pair to a one-element list and renders ` ORDER BY ...`. -/
def applyOrder (order : OrderBy) : String :=
  let orderings := match order with
    | OrderBy.one o => [o]
    | OrderBy.many os => os
  " ORDER BY " ++
    String.intercalate ", " (orderings.map fun o => strWrap o.1 ++ " " ++ o.2.upper)

/-- `QueryBase.applyLimit` (src/src/query-base.ts:285-301): a truthy offset
renders ` LIMIT ?, ?` pushing offset then limit; otherwise ` LIMIT ?` pushing
only the limit. -/
def applyLimit (values : List BindValue) (limit : Nat) (offset : Option Nat) :
    String × List BindValue :=
  if truthyNat offset then
    (" LIMIT ?, ?", values ++ [bnat (offset.getD 0), bnat limit])
  else
    (" LIMIT ?", values ++ [bnat limit])

/-- `QueryBase.select` (src/src/query-base.ts:39-87) after its argument
normalization: renders the SELECT statement and its bind values. `cond = none`
is an absent condition; `opt = none` absent options. The guards mirror the
source: `if (cond)`, `if (opt?.order)`, `if (opt?.limit)` (the last one is
numeric truthiness). -/
def select (cols : Cols) (table : String) (cond : Option Condition)
    (opt : Option Opts) : String × List BindValue :=
  let sql := "SELECT" ++ (match cols with
    | Cols.star => " *"
    | Cols.cols cs => " " ++ String.intercalate ", " (cs.map strWrap))
  let sql := sql ++ " FROM " ++ strWrap table
  let values : List BindValue := []
  let sv := match cond with
    | some c => let r := applyWhereCondition values c; (sql ++ r.1, r.2)
    | none => (sql, values)
  let sql := match Option.bind opt Opts.order with
    | some ob => sv.1 ++ applyOrder ob
    | none => sv.1
  if truthyNat (Option.bind opt Opts.limit) then
    let r := applyLimit sv.2 ((Option.bind opt Opts.limit).getD 0)
      (Option.bind opt Opts.offset)
    (sql ++ r.1, r.2)
  else (sql, sv.2)

/-- `QueryBase.insert` (src/src/query-base.ts:111-151) after the one-row case
is normalized to a one-element list: the empty row list fails the `assert.ok`,
otherwise the column list and the placeholder group arity come from the first
row, one group per row, and each row pushes its own values in its own order
(rows concatenated in input order). -/
def insert (table : String) (rows : List Row) (upsertFlag : Bool) :
    Except String (String × List BindValue) :=
  match rows with
  | [] => Except.error "There must be atleast one row to insert."
  | firstRow :: rest =>
      let firstRowKeys := firstRow.map Prod.fst
      let valuePlaceholder :=
        "(" ++ String.intercalate ", " (firstRowKeys.map fun _ => "?") ++ ")"
      let sql := "INSERT INTO " ++ strWrap table
      let sql := sql ++ " (" ++
        String.intercalate ", " (firstRowKeys.map strWrap) ++ ") VALUES "
      let sql := sql ++
        String.intercalate ", " ((firstRow :: rest).map fun _ => valuePlaceholder)
      let values := (firstRow :: rest).foldl
        (fun acc row => acc ++ row.map Prod.snd) ([] : List BindValue)
      let sql := if upsertFlag then
          sql ++ " ON DUPLICATE KEY UPDATE " ++
            String.intercalate ", " (firstRowKeys.map fun k =>
              strWrap k ++ " = COALESCE(VALUES(" ++ strWrap k ++ "), " ++
                strWrap k ++ ")")
        else sql
      Except.ok (sql, values)

/-- `QueryBase.update` (src/src/query-base.ts:153-193). Empty `data` returns
early without executing anything (`.ok none`). The offset guard
(`if (opts?.offset) throw`) sits after the SQL is assembled but before
`this.execute`, so a truthy offset yields an error and no statement reaches
the driver. `applyLimit` is called without an offset argument here. -/
def update (table : String) (data : Row) (cond : Option Condition)
    (opts : Option Opts) : Except String (Option (String × List BindValue)) :=
  let keys := data.map Prod.fst
  if keys.length = 0 then Except.ok none
  else
    let sql := "UPDATE " ++ strWrap table ++ " SET"
    let sql := sql ++ " " ++
      String.intercalate ", " (data.map fun kv => strWrap kv.1 ++ " = ?")
    let values := data.map Prod.snd
    let sv := match cond with
      | some c => let r := applyWhereCondition values c; (sql ++ r.1, r.2)
      | none => (sql, values)
    let sv := match Option.bind opts Opts.order with
      | some ob => (sv.1 ++ applyOrder ob, sv.2)
      | none => sv
    let sv := if truthyNat (Option.bind opts Opts.limit) then
        let r := applyLimit sv.2 ((Option.bind opts Opts.limit).getD 0) none
        (sv.1 ++ r.1, r.2)
      else sv
    if truthyNat (Option.bind opts Opts.offset) then
      Except.error "offset not supported on updates using MySQL"
    else Except.ok (some sv)

/-- `QueryBase.delete` (src/src/query-base.ts:199-226): like `update` without
the SET part and without the empty-data early return; the offset guard again
sits between SQL assembly and `this.execute`. -/
def deleteFrom (table : String) (cond : Option Condition) (opts : Option Opts) :
    Except String (Option (String × List BindValue)) :=
  let sql := "DELETE" ++ " FROM " ++ strWrap table
  let values : List BindValue := []
  let sv := match cond with
    | some c => let r := applyWhereCondition values c; (sql ++ r.1, r.2)
    | none => (sql, values)
  let sv := match Option.bind opts Opts.order with
    | some ob => (sv.1 ++ applyOrder ob, sv.2)
    | none => sv
  let sv := if truthyNat (Option.bind opts Opts.limit) then
      let r := applyLimit sv.2 ((Option.bind opts Opts.limit).getD 0) none
      (sv.1 ++ r.1, r.2)
    else sv
  if truthyNat (Option.bind opts Opts.offset) then
    Except.error "offset not supported on deletes using MySQL"
  else Except.ok (some sv)

/-!
Connection and transaction lifecycle (src/src/query-base.ts:303-351 and
src/src/index.ts). The observable behaviour of one physical connection is a
trace of events: the statements the driver receives, invocations of the
`onNewConnection` hook, and `release()` calls returning the connection to the
pool.
-/

/-- An observable event on a physical connection. -/
inductive Event
  | query (sql : String)
  | hook
  | release
deriving Repr, DecidableEq

/-- The state of one physical connection: the
`mysql2ExtendedAlreadyInited` marker (src/src/query-base.ts:321-325) and the
event trace so far. -/
structure ConnState where
  inited : Bool
  trace : List Event
deriving Repr, DecidableEq

/-- A freshly created physical connection: marker unset, empty trace. -/
def freshConn : ConnState := ⟨false, []⟩

/-- `QueryBase.getConnection` (src/src/query-base.ts:314-335), pool branch:
the connection comes from the pool; `isNewConnection` is read from the
per-connection marker, the marker is set, and the hook (when configured) runs
only for a new connection. -/
def acquirePool (hookConfigured : Bool) (st : ConnState) : ConnState :=
  let isNewConnection := !st.inited
  let st1 : ConnState := ⟨true, st.trace⟩
  if hookConfigured && isNewConnection then ⟨st1.inited, st1.trace ++ [Event.hook]⟩
  else st1

/-- `QueryBase.getConnection`, fixed single-connection branch: the driver
itself is the connection; the marker is neither read nor set, so
`isNewConnection` keeps its initial value `true` and the hook (when
configured) runs on every acquisition. -/
def acquireSingle (hookConfigured : Bool) (st : ConnState) : ConnState :=
  if hookConfigured then ⟨st.inited, st.trace ++ [Event.hook]⟩ else st

/-- `QueryBase.execute` (src/src/query-base.ts:303-312) against a pool
driver. `fails = true` means the driver's `con.query` rejects; the error then
propagates before `this.closeConnection(con)` runs (there is no finally
block), so no release is recorded. On success `closeConnection` sees a pool
connection (it has `release`) and releases it. -/
def executePool (hookConfigured : Bool) (sql : String) (fails : Bool)
    (st : ConnState) : ConnState :=
  let st1 := acquirePool hookConfigured st
  let st2 : ConnState := ⟨st1.inited, st1.trace ++ [Event.query sql]⟩
  if fails then st2 else ⟨st2.inited, st2.trace ++ [Event.release]⟩

/-- `QueryBase.execute` against a fixed single connection: `closeConnection`
finds no `release` member on a plain connection and does nothing, whether the
query succeeds or fails. -/
def executeSingle (hookConfigured : Bool) (sql : String) (fails : Bool)
    (st : ConnState) : ConnState :=
  let st1 := acquireSingle hookConfigured st
  let _ := fails
  ⟨st1.inited, st1.trace ++ [Event.query sql]⟩

/-- A sequence of non-transactional operations against a pool driver, all
served by the same physical connection (each entry: sql text, whether the
driver's query rejects). -/
def runPoolOps (hookConfigured : Bool) (ops : List (String × Bool))
    (st : ConnState) : ConnState :=
  ops.foldl (fun s op => executePool hookConfigured op.1 op.2 s) st

/-- A sequence of operations against a fixed single-connection driver. -/
def runSingleOps (hookConfigured : Bool) (ops : List (String × Bool))
    (st : ConnState) : ConnState :=
  ops.foldl (fun s op => executeSingle hookConfigured op.1 op.2 s) st

/-- The trace one pool-served operation contributes after the hook question
is settled: the statement, then a release exactly when the query succeeded. -/
def opTrace (op : String × Bool) : List Event :=
  Event.query op.1 :: (if op.2 then [] else [Event.release])

/-!
The `Transaction` class (src/src/index.ts:42-84). A transaction holds one
fixed connection (`this.con`); its inherited `execute` sends the statement on
that connection and then calls `closeConnection(con)`, which calls
`con.release()` exactly when the connection has a `release` member — i.e.
when the transaction's connection came from a pool (`hasRel`). Driver
statements themselves are modelled as succeeding; the claims below are about
the state machine and the callback outcome, not about driver faults.
-/

/-- The terminal actions of `Transaction.validateCleanAndMarkDirty`. -/
inductive TAction
  | commitA
  | rollbackA
deriving Repr, DecidableEq

/-- The SQL keyword of a terminal action. -/
def TAction.str : TAction → String
  | TAction.commitA => "COMMIT"
  | TAction.rollbackA => "ROLLBACK"

/-- The fields of `Transaction` (src/src/index.ts:43-44). -/
structure Transaction where
  hasBegin : Bool := false
  lastAction : Option TAction := none
deriving Repr, DecidableEq

/-- `Transaction.validateCleanAndMarkDirty` (src/src/index.ts:74-83): with no
prior terminal action, record this one; otherwise throw an error naming the
attempted action and the prior one. -/
def validateCleanAndMarkDirty (t : Transaction) (action : TAction) :
    Except String Transaction :=
  match t.lastAction with
  | none => Except.ok { t with lastAction := some action }
  | some prev =>
      Except.error
        ("Cannot " ++ action.str ++ " transaction. Already got " ++ prev.str)

/-- The inherited `QueryBase.execute` as seen through a transaction: the
statement goes on the held connection, then `closeConnection` releases it
exactly when it is pool-sourced (`hasRel`). -/
def txExecute (hasRel : Bool) (sql : String) (tr : List Event) : List Event :=
  let tr1 := tr ++ [Event.query sql]
  if hasRel then tr1 ++ [Event.release] else tr1

/-- `Transaction._begin` (src/src/index.ts:50-56): guarded by `hasBegin`,
then executes `BEGIN`. Note the source never assigns `hasBegin = true`; this
embedding is faithful to that. Returns the (unchanged) transaction and the
extended trace, or the error with the trace untouched. -/
def beginTx (t : Transaction) (hasRel : Bool) (tr : List Event) :
    Except String Transaction × List Event :=
  if t.hasBegin then (Except.error "Transaction has already began", tr)
  else (Except.ok t, txExecute hasRel "BEGIN" tr)

/-- `Transaction.commit` (src/src/index.ts:58-62): validate and mark, then
execute `COMMIT`; on a validation error nothing is executed. -/
def commit (t : Transaction) (hasRel : Bool) (tr : List Event) :
    Except String Transaction × List Event :=
  match validateCleanAndMarkDirty t TAction.commitA with
  | Except.error m => (Except.error m, tr)
  | Except.ok t2 => (Except.ok t2, txExecute hasRel "COMMIT" tr)

/-- `Transaction.rollback` (src/src/index.ts:64-68): validate and mark, then
execute `ROLLBACK`; on a validation error nothing is executed. -/
def rollback (t : Transaction) (hasRel : Bool) (tr : List Event) :
    Except String Transaction × List Event :=
  match validateCleanAndMarkDirty t TAction.rollbackA with
  | Except.error m => (Except.error m, tr)
  | Except.ok t2 => (Except.ok t2, txExecute hasRel "ROLLBACK" tr)

/-- The statements a callback issues through the transaction handle, in
order; each goes through the inherited `execute`. -/
def runCallback (hasRel : Bool) (stmts : List String) (tr : List Event) :
    List Event :=
  stmts.foldl (fun acc s => txExecute hasRel s acc) tr

/-- The outcome of `MySQL2Extended.transaction`: the callback's result, a
rethrown callback error (carried unchanged), or an error thrown by the
library itself. -/
inductive TxOutcome (ε ρ : Type)
  | ok (r : ρ)
  | err (e : ε)
  | stateErr (msg : String)
deriving Repr, DecidableEq

/-- `MySQL2Extended.transaction` (src/src/index.ts:23-39): begin a fresh
transaction, run the callback (its statements `cbStmts`, its outcome
`cbResult`), commit on normal return and hand back the result; on a thrown
error roll back and rethrow that same error. The catch block is modelled
faithfully: whatever the try block threw is rethrown after the rollback, and
an error thrown by the rollback itself would replace it. -/
def managedTransaction (ε ρ : Type) (hasRel : Bool) (cbStmts : List String)
    (cbResult : Except ε ρ) : TxOutcome ε ρ × List Event :=
  match beginTx {} hasRel [] with
  | (Except.error m, tr) => (TxOutcome.stateErr m, tr)
  | (Except.ok t, tr) =>
      let tr1 := runCallback hasRel cbStmts tr
      match cbResult with
      | Except.ok r =>
          match commit t hasRel tr1 with
          | (Except.ok _, tr2) => (TxOutcome.ok r, tr2)
          | (Except.error m, tr2) =>
              match rollback t hasRel tr2 with
              | (Except.ok _, tr3) => (TxOutcome.stateErr m, tr3)
              | (Except.error m2, tr3) => (TxOutcome.stateErr m2, tr3)
      | Except.error e =>
          match rollback t hasRel tr1 with
          | (Except.ok _, tr3) => (TxOutcome.err e, tr3)
          | (Except.error m2, tr3) => (TxOutcome.stateErr m2, tr3)

/-- The trace a statement list produces through `txExecute`: each statement,
followed by a release exactly when the connection is pool-sourced. -/
def txTraceOf (hasRel : Bool) (stmts : List String) : List Event :=
  stmts.flatMap fun s =>
    Event.query s :: (if hasRel then [Event.release] else [])

/-- The statements of a trace, in order. -/
def statementsOf (tr : List Event) : List String :=
  tr.filterMap fun e =>
    match e with
    | Event.query s => some s
    | _ => none

/-!
Spec-side descriptions (transcribed from the specification's words, to be
compared with the source-derived definitions above), and helper lemmas.
-/

/-- The clause the spec prescribes for one condition key: `IS NULL` for a
null value, `IN(?)` for a list value, `= ?` otherwise. -/
def specWhereClause (kv : String × BindValue) : String :=
  match kv.2 with
  | BindValue.scalar DataValue.null => "`" ++ kv.1 ++ "` IS NULL"
  | BindValue.arr _ => "`" ++ kv.1 ++ "` IN(?)"
  | _ => "`" ++ kv.1 ++ "` = ?"

/-- The bind values the spec prescribes for one condition key: nothing for a
null value, the whole list as one value for a list, the scalar otherwise. -/
def specWhereBinds (kv : String × BindValue) : List BindValue :=
  match kv.2 with
  | BindValue.scalar DataValue.null => []
  | v => [v]

/-- One step of the condition fold appends one clause and its binds. -/
theorem whereStep_eq (acc : List String × List BindValue) (kv : String × BindValue) :
    whereStep acc kv = (acc.1 ++ [specWhereClause kv], acc.2 ++ specWhereBinds kv) := by
  obtain ⟨k, v⟩ := kv
  have l2 : ("`" : String) ++ " IN(?)" = "` IN(?)" := rfl
  have l3 : ("`" : String) ++ " = ?" = "` = ?" := rfl
  cases v with
  | scalar d =>
      cases d <;>
        simp [whereStep, specWhereClause, specWhereBinds, BindValue.isArr,
          String.append_assoc, l2, l3]
  | arr vs =>
      simp [whereStep, specWhereClause, specWhereBinds, BindValue.isArr,
        String.append_assoc, l2, l3]

/-- The condition fold produces the per-key clauses and binds in key order. -/
theorem foldl_whereStep (cond : Condition) :
    ∀ (cls : List String) (vals : List BindValue),
      cond.foldl whereStep (cls, vals) =
        (cls ++ cond.map specWhereClause, vals ++ cond.flatMap specWhereBinds) := by
  induction cond with
  | nil => intro cls vals; simp
  | cons kv rest ih =>
      intro cls vals
      rw [List.foldl_cons, whereStep_eq, ih]
      simp

/-- C4: the WHERE clause is compiled per key in iteration order and joined
with " AND ": a null value emits `` `col` IS NULL `` and binds nothing, a
list value emits `` `col` IN(?) `` binding the whole list as one value, any
other value emits `` `col` = ? `` binding the scalar; in particular
`select('users', {id: 3, firstname: 'Test'})` renders
``SELECT * FROM `users` WHERE `id` = ? AND `firstname` = ?`` with values
`[3, 'Test']`. -/
theorem where_condition_spec :
    (∀ (cond : Condition) (values : List BindValue),
      applyWhereCondition values cond =
        (" WHERE " ++ String.intercalate " AND " (cond.map specWhereClause),
         values ++ cond.flatMap specWhereBinds)) ∧
    select Cols.star "users" (some [("id", bnum 3), ("firstname", bstr "Test")]) none =
      ("SELECT * FROM `users` WHERE `id` = ? AND `firstname` = ?",
       [bnum 3, bstr "Test"]) := by
  refine ⟨?_, by rfl⟩
  intro cond values
  simp [applyWhereCondition, foldl_whereStep]

/-- C6: with a (non-zero) limit, a present non-zero offset renders
` LIMIT ?, ?` binding offset then limit in that order; an absent or zero
offset renders ` LIMIT ?` binding only the limit; in particular a select with
limit 3 and offset 1 ends in `LIMIT ?, ?` bound to `[1, 3]`, and with only
limit 3 ends in `LIMIT ?` bound to `[3]`. -/
theorem limit_offset_spec :
    (∀ (values : List BindValue) (limit : Nat) (o : Nat), o ≠ 0 →
      applyLimit values limit (some o) =
        (" LIMIT ?, ?", values ++ [bnat o, bnat limit])) ∧
    (∀ (values : List BindValue) (limit : Nat),
      applyLimit values limit none = (" LIMIT ?", values ++ [bnat limit]) ∧
      applyLimit values limit (some 0) = (" LIMIT ?", values ++ [bnat limit])) ∧
    select Cols.star "users" none (some ⟨some 1, some 3, none⟩) =
      ("SELECT * FROM `users` LIMIT ?, ?", [bnat 1, bnat 3]) ∧
    select Cols.star "users" none (some ⟨none, some 3, none⟩) =
      ("SELECT * FROM `users` LIMIT ?", [bnat 3]) := by
  refine ⟨?_, ?_, by rfl, by rfl⟩
  · intro values limit o ho
    have ht : truthyNat (some o) = true := by simpa [truthyNat] using ho
    simp [applyLimit, ht]
  · intro values limit
    constructor <;> simp [applyLimit, truthyNat]

/-- Witness for `limit_offset_spec` at offset 1, limit 3. -/
theorem limit_offset_spec_witness :
    (1 : Nat) ≠ 0 ∧
    applyLimit [] 3 (some 1) = (" LIMIT ?, ?", [bnat 1, bnat 3]) :=
  ⟨by decide, limit_offset_spec.1 [] 3 1 (by decide)⟩

/-- C2: from a clean transaction a first `commit`/`rollback` succeeds and
records the terminal action; on a transaction whose terminal action is
recorded, any further `commit` or `rollback` fails with an error naming the
prior action and sends no statement (the trace is unchanged) — no transition
leaves a terminal state. -/
theorem transaction_terminal_state (t0 t : Transaction) (a : TAction)
    (hr hr2 : Bool) (tr tr2 : List Event)
    (h0 : t0.lastAction = none) (ha : t.lastAction = some a) :
    (commit t0 hr tr).1 = Except.ok { t0 with lastAction := some TAction.commitA } ∧
    (rollback t0 hr tr).1 = Except.ok { t0 with lastAction := some TAction.rollbackA } ∧
    commit t hr2 tr2 =
      (Except.error ("Cannot COMMIT transaction. Already got " ++ a.str), tr2) ∧
    rollback t hr2 tr2 =
      (Except.error ("Cannot ROLLBACK transaction. Already got " ++ a.str), tr2) := by
  have e1 : ("Cannot " : String) ++ "COMMIT" ++ " transaction. Already got " =
      "Cannot COMMIT transaction. Already got " := rfl
  have e2 : ("Cannot " : String) ++ "ROLLBACK" ++ " transaction. Already got " =
      "Cannot ROLLBACK transaction. Already got " := rfl
  refine ⟨?_, ?_, ?_, ?_⟩ <;>
    simp [commit, rollback, validateCleanAndMarkDirty, h0, ha, TAction.str,
      String.append_assoc, ← e1, ← e2, String.append_assoc]

/-- Witness for `transaction_terminal_state`: a committed transaction
rejects both a second `commit` and a `rollback`, naming `COMMIT`. -/
theorem transaction_terminal_state_witness :
    ((⟨false, none⟩ : Transaction).lastAction = none) ∧
    ((⟨false, some TAction.commitA⟩ : Transaction).lastAction = some TAction.commitA) ∧
    ((commit ⟨false, none⟩ false []).1 = Except.ok ⟨false, some TAction.commitA⟩ ∧
     (rollback ⟨false, none⟩ false []).1 = Except.ok ⟨false, some TAction.rollbackA⟩ ∧
     commit ⟨false, some TAction.commitA⟩ false [] =
       (Except.error "Cannot COMMIT transaction. Already got COMMIT", []) ∧
     rollback ⟨false, some TAction.commitA⟩ false [] =
       (Except.error "Cannot ROLLBACK transaction. Already got COMMIT", [])) :=
  ⟨rfl, rfl,
   transaction_terminal_state ⟨false, none⟩ ⟨false, some TAction.commitA⟩
     TAction.commitA false false [] [] rfl rfl⟩

/-- C3 (code bug): the source declares and checks `hasBegin` but never
assigns it, so a second `_begin()` on the same transaction is not rejected
and sends a second `BEGIN` statement. The first call returns the transaction
with `hasBegin` still `false`; feeding it back in, the second call also
returns `Except.ok` and the trace now carries two `BEGIN` statements. -/
theorem second_begin_not_rejected :
    beginTx ⟨false, none⟩ false [] =
      (Except.ok ⟨false, none⟩, [Event.query "BEGIN"]) ∧
    beginTx ⟨false, none⟩ false [Event.query "BEGIN"] =
      (Except.ok ⟨false, none⟩, [Event.query "BEGIN", Event.query "BEGIN"]) :=
  ⟨rfl, rfl⟩

/-- C8 (code bug): a transaction whose connection came from a pool releases
that connection after every statement, because the inherited `execute` always
calls `closeConnection` and the pooled connection has a `release` member:
right after `BEGIN` — with `lastAction` still `none`, i.e. no terminal state
reached — a release has already happened, and every in-transaction statement
releases again. -/
theorem transaction_releases_after_begin :
    beginTx ⟨false, none⟩ true [] =
      (Except.ok ⟨false, none⟩, [Event.query "BEGIN", Event.release]) ∧
    (⟨false, none⟩ : Transaction).lastAction = none ∧
    txExecute true "SELECT * FROM `users`" [Event.query "BEGIN", Event.release] =
      [Event.query "BEGIN", Event.release,
       Event.query "SELECT * FROM `users`", Event.release] :=
  ⟨rfl, rfl, rfl⟩

/-- C7 counterexample: a non-transactional operation on a pool driver whose
`con.query` rejects does not release the acquired connection — `execute` has
no finally block, so `closeConnection` is skipped and the trace carries no
release event, contradicting the claim that the connection is returned to the
pool also when the driver throws. -/
theorem pool_release_counterexample :
    (executePool false "SELECT 1" true freshConn).trace = [Event.query "SELECT 1"] ∧
    Event.release ∉ (executePool false "SELECT 1" true freshConn).trace :=
  ⟨rfl, by decide⟩

/-- C7 amended: a pool-acquired connection is released exactly when the
driver's statement execution succeeds; when it throws, the error propagates
and no release happens. -/
theorem pool_release_iff_success (hookConfigured : Bool) (sql : String)
    (st : ConnState) :
    (executePool hookConfigured sql false st).trace =
      (acquirePool hookConfigured st).trace ++ [Event.query sql, Event.release] ∧
    (executePool hookConfigured sql true st).trace =
      (acquirePool hookConfigured st).trace ++ [Event.query sql] := by
  constructor <;> simp [executePool]

/-- C10 counterexample: `update` with an empty data object returns early as a
no-op, so even with a non-zero offset no "offset not supported" error is
raised — the claim fails for the empty-data update call. -/
theorem update_empty_data_offset_counterexample :
    update "users" [] none (some ⟨some 5, none, none⟩) = Except.ok none ∧
    update "users" [] none (some ⟨some 5, none, none⟩) ≠
      Except.error "offset not supported on updates using MySQL" :=
  ⟨rfl, by simp [update]⟩

/-- C10 amended: every `delete` call, and every `update` call with at least
one data key, whose options carry a non-zero offset fails with the
"offset not supported" error; the error is raised before `this.execute`, so
no statement is sent to the driver. -/
theorem offset_rejected_spec (table : String) (data : Row)
    (cond : Option Condition) (o : Nat) (lim : Option Nat) (ord : Option OrderBy)
    (hd : data ≠ []) (ho : o ≠ 0) :
    update table data cond (some ⟨some o, lim, ord⟩) =
      Except.error "offset not supported on updates using MySQL" ∧
    deleteFrom table cond (some ⟨some o, lim, ord⟩) =
      Except.error "offset not supported on deletes using MySQL" := by
  have ht : truthyNat (some o) = true := by simpa [truthyNat] using ho
  constructor
  · cases data with
    | nil => exact absurd rfl hd
    | cons kv data' => simp [update, ht]
  · simp [deleteFrom, ht]

/-- Witness for `offset_rejected_spec` at a one-column update and offset 2. -/
theorem offset_rejected_spec_witness :
    ([(("a" : String), bnum 1)] ≠ ([] : Row)) ∧ ((2 : Nat) ≠ 0) ∧
    (update "t" [("a", bnum 1)] none (some ⟨some 2, none, none⟩) =
       Except.error "offset not supported on updates using MySQL" ∧
     deleteFrom "t" none (some ⟨some 2, none, none⟩) =
       Except.error "offset not supported on deletes using MySQL") :=
  ⟨by decide, by decide,
   offset_rejected_spec "t" [("a", bnum 1)] none 2 none none (by decide) (by decide)⟩

/-- A left fold that appends `f r` per element is the flat map. -/
theorem foldl_append_eq_flatMap {α β : Type} (f : α → List β) (l : List α) :
    ∀ acc : List β, l.foldl (fun a r => a ++ f r) acc = acc ++ l.flatMap f := by
  induction l with
  | nil => intro acc; simp
  | cons x xs ih => intro acc; simp [ih]

/-- Pointwise equal functions give equal flat maps. -/
theorem flatMap_congr {α β : Type} {l : List α} {f g : α → List β}
    (h : ∀ x ∈ l, f x = g x) : l.flatMap f = l.flatMap g := by
  induction l with
  | nil => simp
  | cons x xs ih =>
      simp only [List.flatMap_cons]
      rw [h x (by simp), ih (fun y hy => h y (by simp [hy]))]

/-- The value a row holds for a column name (first occurrence; a missing
column reads as null — uniform rows never hit that default). -/
def rowLookup (r : Row) (k : String) : BindValue :=
  (Option.map Prod.snd (r.find? fun kv => kv.1 == k)).getD
    (BindValue.scalar DataValue.null)

/-- Looking up the head column reads the head value. -/
theorem rowLookup_head (k : String) (v : BindValue) (r : Row) :
    rowLookup ((k, v) :: r) k = v := by
  simp [rowLookup]

/-- Looking up a different column skips the head entry. -/
theorem rowLookup_ne (k k2 : String) (v : BindValue) (r : Row) (h : k ≠ k2) :
    rowLookup ((k, v) :: r) k2 = rowLookup r k2 := by
  simp [rowLookup, List.find?_cons, h]

/-- For a row whose key sequence is `ks` with no duplicate keys, reading the
columns in `ks` order reproduces the row's values in order. -/
theorem map_rowLookup (ks : List String) :
    ∀ (r : Row), r.map Prod.fst = ks → ks.Nodup →
      ks.map (rowLookup r) = r.map Prod.snd := by
  induction ks with
  | nil =>
      intro r h _
      cases r with
      | nil => simp
      | cons kv r' => simp at h
  | cons k ks' ih =>
      intro r h hnd
      cases r with
      | nil => simp at h
      | cons kv r' =>
          obtain ⟨k1, v1⟩ := kv
          simp only [List.map_cons, List.cons.injEq] at h
          obtain ⟨hk1, hrest⟩ := h
          subst hk1
          rw [List.nodup_cons] at hnd
          obtain ⟨hkn, hnd'⟩ := hnd
          simp only [List.map_cons]
          rw [rowLookup_head]
          have hmaps : ks'.map (rowLookup ((k1, v1) :: r')) = ks'.map (rowLookup r') :=
            List.map_congr_left fun x hx =>
              rowLookup_ne k1 x v1 r' (fun he => hkn (he ▸ hx))
          rw [hmaps, ih r' hrest hnd']

/-- C5: for a non-empty list of uniform rows, `insert` renders
`INSERT INTO \x60table\x60 (cols…) VALUES (?,…), …` with the column list
taken from the first row and one placeholder group per row in input order,
and the bind list concatenates the rows' values in input order (row-major);
under uniformity (and the unique-keys invariant) each row's values are
exactly its values read in the first row's column order. -/
theorem insert_spec (table : String) (firstRow : Row) (rest : List Row)
    (hu : ∀ r ∈ rest, r.map Prod.fst = firstRow.map Prod.fst)
    (hnd : (firstRow.map Prod.fst).Nodup) :
    insert table (firstRow :: rest) false =
      Except.ok
        ("INSERT INTO " ++ strWrap table ++ " (" ++
            String.intercalate ", " ((firstRow.map Prod.fst).map strWrap) ++
            ") VALUES " ++
            String.intercalate ", " ((firstRow :: rest).map fun _ =>
              "(" ++ String.intercalate ", "
                ((firstRow.map Prod.fst).map fun _ => "?") ++ ")"),
         (firstRow :: rest).flatMap fun r => r.map Prod.snd) ∧
    ((firstRow :: rest).flatMap fun r => r.map Prod.snd) =
      ((firstRow :: rest).flatMap fun r =>
        (firstRow.map Prod.fst).map (rowLookup r)) := by
  constructor
  · simp [insert, foldl_append_eq_flatMap]
  · refine (flatMap_congr fun r hr => ?_).symm
    rcases List.mem_cons.mp hr with h | h
    · subst h; exact map_rowLookup (r.map Prod.fst) r rfl hnd
    · exact map_rowLookup (firstRow.map Prod.fst) r (hu r h) hnd

/-- Witness for `insert_spec`: two uniform two-column rows render
`VALUES (?, ?), (?, ?)` bound to the four values in row-major order. -/
theorem insert_spec_witness :
    (∀ r ∈ [[(("a" : String), bnum 3), ("b", bnum 4)]],
      r.map Prod.fst = [(("a" : String), bnum 1), ("b", bnum 2)].map Prod.fst) ∧
    ([(("a" : String), bnum 1), ("b", bnum 2)].map Prod.fst).Nodup ∧
    insert "t" [[("a", bnum 1), ("b", bnum 2)], [("a", bnum 3), ("b", bnum 4)]] false =
      Except.ok ("INSERT INTO `t` (`a`, `b`) VALUES (?, ?), (?, ?)",
        [bnum 1, bnum 2, bnum 3, bnum 4]) :=
  ⟨by decide, by decide,
   (insert_spec "t" [("a", bnum 1), ("b", bnum 2)] [[("a", bnum 3), ("b", bnum 4)]]
     (by decide) (by decide)).1⟩

/-- The number of hook events in a trace. -/
def countHook : List Event → Nat
  | [] => 0
  | Event.hook :: rest => countHook rest + 1
  | _ :: rest => countHook rest

/-- `countHook` distributes over append. -/
theorem countHook_append (a b : List Event) :
    countHook (a ++ b) = countHook a + countHook b := by
  induction a with
  | nil => simp [countHook]
  | cons e rest ih =>
      cases e <;> simp [countHook, ih]
      omega

/-- A pool-served operation's own trace carries no hook event. -/
theorem countHook_opTrace (op : String × Bool) : countHook (opTrace op) = 0 := by
  obtain ⟨s, f⟩ := op
  cases f <;> simp [opTrace, countHook]

/-- The operations' combined trace carries no hook event. -/
theorem countHook_flatMap_opTrace (ops : List (String × Bool)) :
    countHook (ops.flatMap opTrace) = 0 := by
  induction ops with
  | nil => simp [countHook]
  | cons op rest ih => simp [List.flatMap_cons, countHook_append, countHook_opTrace, ih]

/-- Once the per-connection marker is set, further pool operations run no
hook: the fold just appends each operation's statement/release trace. -/
theorem runPoolOps_inited_trace (hc : Bool) (ops : List (String × Bool)) :
    ∀ (st : ConnState), st.inited = true →
      runPoolOps hc ops st = ⟨true, st.trace ++ ops.flatMap opTrace⟩ := by
  induction ops with
  | nil =>
      intro st h
      obtain ⟨i, tr⟩ := st
      simp only at h
      subst h
      simp [runPoolOps]
  | cons op rest ih =>
      intro st h
      obtain ⟨i, tr⟩ := st
      simp only at h
      subst h
      obtain ⟨s, f⟩ := op
      have e1 : executePool hc s f ⟨true, tr⟩ = ⟨true, tr ++ opTrace (s, f)⟩ := by
        cases f <;> simp [executePool, acquirePool, opTrace]
      have e2 : runPoolOps hc ((s, f) :: rest) ⟨true, tr⟩ =
          runPoolOps hc rest (executePool hc s f ⟨true, tr⟩) := by
        simp [runPoolOps]
      rw [e2, e1, ih ⟨true, tr ++ opTrace (s, f)⟩ rfl]
      simp

/-- From a fresh physical connection, any sequence of pool operations runs
the hook exactly at the front (when configured and at least one operation
runs), before the first statement. -/
theorem runPoolOps_fresh (hc : Bool) (ops : List (String × Bool)) :
    (runPoolOps hc ops freshConn).trace =
      (if hc && !ops.isEmpty then [Event.hook] else []) ++ ops.flatMap opTrace := by
  cases ops with
  | nil => cases hc <;> simp [runPoolOps, freshConn]
  | cons op rest =>
      obtain ⟨s, f⟩ := op
      have h1 : executePool hc s f freshConn =
          ⟨true, (if hc then [Event.hook] else []) ++ opTrace (s, f)⟩ := by
        cases hc <;> cases f <;> simp [executePool, acquirePool, freshConn, opTrace]
      have h2 : runPoolOps hc ((s, f) :: rest) freshConn =
          runPoolOps hc rest (executePool hc s f freshConn) := by
        simp [runPoolOps]
      rw [h2, h1, runPoolOps_inited_trace hc rest _ rfl]
      cases hc <;> simp

/-- Against a fixed single connection every operation re-runs the hook (when
configured): the marker branch is pool-only, so `isNewConnection` is always
true there. -/
theorem runSingleOps_trace (hc : Bool) (ops : List (String × Bool)) :
    ∀ (st : ConnState),
      (runSingleOps hc ops st).trace =
        st.trace ++ ops.flatMap fun op =>
          (if hc then [Event.hook] else []) ++ [Event.query op.1] := by
  induction ops with
  | nil => intro st; simp [runSingleOps]
  | cons op rest ih =>
      intro st
      obtain ⟨s, f⟩ := op
      have e1 : runSingleOps hc ((s, f) :: rest) st =
          runSingleOps hc rest (executeSingle hc s f st) := by
        simp [runSingleOps]
      have e2 : (executeSingle hc s f st).trace =
          st.trace ++ (if hc then [Event.hook] else []) ++ [Event.query s] := by
        cases hc <;> simp [executeSingle, acquireSingle]
      rw [e1, ih (executeSingle hc s f st), e2]
      simp

/-- C9 amended: for a pool driver the `onNewConnection` hook runs at most
once per physical connection, before that connection's first statement (the
per-connection marker suppresses later runs, across any sequence of
operations and any success/failure pattern); for a fixed single-connection
driver the marker is never consulted, so the hook runs before every
operation. -/
theorem connection_hook_spec (hookConfigured : Bool) (ops : List (String × Bool)) :
    ((runPoolOps hookConfigured ops freshConn).trace =
      (if hookConfigured && !ops.isEmpty then [Event.hook] else []) ++
        ops.flatMap opTrace) ∧
    countHook (runPoolOps hookConfigured ops freshConn).trace ≤ 1 ∧
    (∀ (st : ConnState),
      (runSingleOps hookConfigured ops st).trace =
        st.trace ++ ops.flatMap fun op =>
          (if hookConfigured then [Event.hook] else []) ++ [Event.query op.1]) := by
  refine ⟨runPoolOps_fresh _ _, ?_, runSingleOps_trace _ _⟩
  rw [runPoolOps_fresh, countHook_append, countHook_flatMap_opTrace]
  cases hookConfigured <;> cases ops <;> simp [countHook]

/-- C9 counterexample: with a fixed single connection and the hook
configured, two consecutive queries invoke the hook twice on the same
physical connection — the second invocation happens on an operation that
reuses the connection, contradicting the at-most-once claim. -/
theorem single_connection_hook_twice :
    (runSingleOps true [("SELECT 1", false), ("SELECT 2", false)] freshConn).trace =
      [Event.hook, Event.query "SELECT 1", Event.hook, Event.query "SELECT 2"] ∧
    countHook (runSingleOps true [("SELECT 1", false), ("SELECT 2", false)]
      freshConn).trace = 2 :=
  ⟨rfl, rfl⟩

/-- `txExecute` appends the statement's trace contribution. -/
theorem txExecute_eq (hr : Bool) (s : String) (tr : List Event) :
    txExecute hr s tr = tr ++ txTraceOf hr [s] := by
  cases hr <;> simp [txExecute, txTraceOf]

/-- `txTraceOf` distributes over statement-list append. -/
theorem txTraceOf_append (hr : Bool) (a b : List String) :
    txTraceOf hr (a ++ b) = txTraceOf hr a ++ txTraceOf hr b := by
  simp [txTraceOf]

/-- A callback's statements contribute their traces in order. -/
theorem runCallback_eq (hr : Bool) (ss : List String) :
    ∀ tr : List Event, runCallback hr ss tr = tr ++ txTraceOf hr ss := by
  induction ss with
  | nil => intro tr; simp [runCallback, txTraceOf]
  | cons s ss ih =>
      intro tr
      have e1 : runCallback hr (s :: ss) tr = runCallback hr ss (txExecute hr s tr) := by
        simp [runCallback]
      rw [e1, ih, txExecute_eq]
      have e2 : txTraceOf hr (s :: ss) = txTraceOf hr [s] ++ txTraceOf hr ss := by
        simp [txTraceOf]
      rw [e2, List.append_assoc]

/-- Reading the statements back from a transaction trace recovers the
statement list: releases and hooks carry no statement. -/
theorem statementsOf_txTraceOf (hr : Bool) :
    ∀ ss : List String, statementsOf (txTraceOf hr ss) = ss := by
  intro ss
  induction ss with
  | nil => simp [statementsOf, txTraceOf]
  | cons s ss ih =>
      cases hr <;> simp [statementsOf, txTraceOf] at ih ⊢ <;> exact ih

/-- C1: the managed transaction issues `BEGIN`, then the callback's
statements, then exactly one `COMMIT` when the callback returns normally —
handing back the callback's result — and exactly one `ROLLBACK` when the
callback throws, rethrowing the original error unchanged (`TxOutcome.err`
carries the thrown value itself, neither suppressed nor wrapped). The trace
equations hold for a pool-sourced connection (`hasRel = true`) and a fixed
one alike; the last conjunct recovers the statement sequence from the
trace. -/
theorem managed_transaction_spec (ε ρ : Type) (hasRel : Bool) (cbStmts : List String) :
    (∀ r : ρ, managedTransaction ε ρ hasRel cbStmts (Except.ok r) =
      (TxOutcome.ok r, txTraceOf hasRel ("BEGIN" :: (cbStmts ++ ["COMMIT"])))) ∧
    (∀ e : ε, managedTransaction ε ρ hasRel cbStmts (Except.error e) =
      (TxOutcome.err e, txTraceOf hasRel ("BEGIN" :: (cbStmts ++ ["ROLLBACK"])))) ∧
    (∀ ss : List String, statementsOf (txTraceOf hasRel ss) = ss) := by
  refine ⟨?_, ?_, statementsOf_txTraceOf hasRel⟩ <;> intro x <;>
    simp [managedTransaction, beginTx, commit, rollback, validateCleanAndMarkDirty,
      runCallback_eq, txExecute_eq, txTraceOf_append, txTraceOf]

end M2E
